import Mathlib

/-!
Verification of the workload-identity renewal subsystem of
`client/allocrunner/identity_hook.go` (labynocle/nomad).

Shallow embedding conventions:
* Absolute times and durations are `Int` nanoseconds (Go `time.Time` /
  `time.Duration`).  Go's zero `time.Time` is modelled as the integer 0, so
  contemporary instants are large positive numbers.
* Lean's `/` on `Int` is Euclidean division while Go truncates toward zero;
  the two agree on non-negative operands, which covers every case exercised
  by the theorems below (the sole division is by the literal 2 on a
  non-negative remaining-lifetime in all decisive cases).
* Maps (`map[string]T`) are association lists updated by `setKey`, queried
  by `lookupKey`; insertion order is irrelevant to every property proved.
* The background goroutine `renew` is embedded as a function consuming an
  explicit finite list of per-cycle external inputs (timer/cancel race
  outcome, signer response, sink outcomes, random-stagger draws) and
  producing the trace of signing calls it issued.
-/

namespace IdentityHook

/-- One nanosecond-denominated second (`time.Second`). -/
def second : Int := 1000000000

/-- `time.Hour` in nanoseconds. -/
def hour : Int := 3600 * second

/-- Modelled from the spec: `structs.WorkloadIdentity` (not under src/) — a
declared identity spec with a name and a time-to-live; TTL = 0 means
non-expiring, fetched once and never renewed. -/
structure WorkloadIdentity where
  name : String
  ttl : Int
deriving DecidableEq, Repr

/-- Modelled from the spec: `structs.Task` (not under src/) — a task name and
its ordered list of declared workload identities. -/
structure Task where
  name : String
  identities : List WorkloadIdentity
deriving DecidableEq, Repr

/-- Modelled from the spec: `structs.Allocation` (not under src/) — id,
creation index (consistency lower bound for signing), and tasks. -/
structure Allocation where
  id : String
  createIndex : Nat
  tasks : List Task
deriving DecidableEq, Repr

/-- Modelled from the spec: `structs.WorkloadIdentityRequest` (not under
src/) — the (alloc id, task name, identity name) tuple sent to the signer. -/
structure WorkloadIdentityRequest where
  allocID : String
  taskName : String
  identityName : String
deriving DecidableEq, Repr

/-- Modelled from the spec: `structs.SignedWorkloadIdentity` (not under
src/) — identity name, opaque token string, absolute expiration. -/
structure SignedWorkloadIdentity where
  identityName : String
  jwt : String
  expiration : Int
deriving DecidableEq, Repr

/-- Modelled from the spec: `helper.ExpiryToRenewTime` (not under src/) —
"renewal_time(expiration, now, floor)" returns a duration that leaves slack
before actual expiry (half of the remaining lifetime) and never returns less
than the configured floor. -/
def ExpiryToRenewTime (exp now minWait : Int) : Int :=
  let left := exp - now
  let renewAt := left / 2
  if renewAt < minWait then minWait else renewAt

/-- Modelled from the spec: `helper.Backoff` (not under src/) —
"backoff(floor, ceiling, retryCount)" grows monotonically (doubling) with
the retry count and is capped at the ceiling. -/
def Backoff (base limit : Int) (attempt : Nat) : Int :=
  min (2 ^ attempt * base) limit

/-- Modelled from the spec: `helper.RandomStagger` (not under src/) — a
bounded random jitter scaled to the interval: a non-negative random draw
reduced into [0, intv).  The draw is threaded explicitly as an input. -/
def RandomStagger (intv draw : Int) : Int :=
  if intv ≤ 0 then 0 else draw % intv

/-- Association-list update with Go map overwrite semantics. -/
def setKey {α : Type} : List (String × α) → String → α → List (String × α)
  | [], k, v => [(k, v)]
  | (k', v') :: rest, k, v =>
    if k' = k then (k, v) :: rest else (k', v') :: setKey rest k v

/-- Association-list lookup (Go map read). -/
def lookupKey {α : Type} (m : List (String × α)) (k : String) : Option α :=
  (m.find? (fun p => p.1 = k)).map (fun p => p.2)

/-- The batched request list built by `getIdentities` (identity_hook.go
lines 121–128): one request per declared identity, with no TTL filter. -/
def widRequests (alloc : Allocation) (task : Task) : List WorkloadIdentityRequest :=
  task.identities.map (fun w => ⟨alloc.id, task.name, w.name⟩)

/-- Indexing of signed identities by name (identity_hook.go lines 136–140). -/
def indexByName (swids : List SignedWorkloadIdentity) : List (String × String) :=
  swids.foldl (fun m w => setKey m w.identityName w.jwt) []

/-- `getIdentities` (identity_hook.go lines 115–143).  The signer is passed
as a function of the consistency index and the request batch; `Except.error`
models a non-nil Go error. -/
def getIdentities (alloc : Allocation) (task : Task)
    (signer : Nat → List WorkloadIdentityRequest →
      Except String (List SignedWorkloadIdentity)) :
    Except String (List (String × String)) :=
  if task.identities.length = 0 then .ok []
  else
    match signer alloc.createIndex (widRequests alloc task) with
    | .error e => .error e
    | .ok swids => .ok (indexByName swids)

/-- Observable outcome of `Prerun` (identity_hook.go lines 75–99):
the sequence of `SetSignedTaskIdentities` publications issued, the error
returned (if any), and the renewal loops spawned, each recorded with the
`signedWIDs` argument it was given.  The outer `signedWIDs` map declared at
line 76 is shadowed by the `:=` at line 85, so the spawned loop always
receives the still-empty outer map. -/
structure PrerunResult where
  published : List (List (String × String))
  error : Option String
  spawned : List (List (String × SignedWorkloadIdentity))
deriving DecidableEq, Repr

/-- Task-list traversal of `Prerun` (identity_hook.go lines 78–98): each
task's identities are fetched and published; the first error aborts with a
wrapped message and no loop is spawned; on full success exactly one renewal
loop starts, with the (empty, shadowed) outer `signedWIDs`. -/
def PrerunTasks (alloc : Allocation)
    (signer : Nat → List WorkloadIdentityRequest →
      Except String (List SignedWorkloadIdentity)) :
    List Task → PrerunResult
  | [] => { published := [], error := none, spawned := [[]] }
  | t :: rest =>
    match getIdentities alloc t signer with
    | .error e =>
      { published := [],
        error := some ("error fetching alternate identities: " ++ e),
        spawned := [] }
    | .ok m =>
      let r := PrerunTasks alloc signer rest
      { published := m :: r.published, error := r.error, spawned := r.spawned }

/-- `Prerun` (identity_hook.go lines 75–99). -/
def Prerun (alloc : Allocation)
    (signer : Nat → List WorkloadIdentityRequest →
      Except String (List SignedWorkloadIdentity)) : PrerunResult :=
  PrerunTasks alloc signer alloc.tasks

/-- The hook's cancellation signal (`stopCtx` / `stop`): a single boolean
latch, `true` once canceled. -/
def stopSignal (_ : Bool) : Bool := true

/-- `Stop` (identity_hook.go lines 102–105): cancels the shared signal. -/
def Stop (canceled : Bool) : Bool := stopSignal canceled

/-- `Shutdown` (identity_hook.go lines 108–110): same cancellation. -/
def Shutdown (canceled : Bool) : Bool := stopSignal canceled

/-- The per-task candidate-selection state of `renew` (identity_hook.go
lines 158–189): the batched request list, the name→spec map, the
renew-immediately flag, and the running minimum expiration. -/
structure RenewSetup where
  reqs : List WorkloadIdentityRequest
  widMap : List (String × WorkloadIdentity)
  renewNow : Bool
  minExp : Int
deriving DecidableEq, Repr

/-- Body of the candidate-selection loop (identity_hook.go lines 163–189):
TTL = 0 identities are skipped; each candidate is registered in `widMap` and
`reqs`; a candidate with no prior signed token sets `renewNow`; otherwise
its expiration is folded into the strict-less running minimum. -/
def setupStep (alloc : Allocation) (taskName : String)
    (signedWIDs : List (String × SignedWorkloadIdentity))
    (s : RenewSetup) (wid : WorkloadIdentity) : RenewSetup :=
  if wid.ttl = 0 then s
  else
    let s1 : RenewSetup :=
      { s with widMap := setKey s.widMap wid.name wid,
               reqs := s.reqs ++ [⟨alloc.id, taskName, wid.name⟩] }
    match lookupKey signedWIDs wid.name with
    | none => { s1 with renewNow := true }
    | some sid =>
      if sid.expiration < s1.minExp then { s1 with minExp := sid.expiration } else s1

/-- Candidate selection for one task (identity_hook.go lines 158–189),
starting from the high default expiration `now + 30h` (line 160). -/
def renewSetup (alloc : Allocation) (task : Task)
    (signedWIDs : List (String × SignedWorkloadIdentity)) (now : Int) : RenewSetup :=
  task.identities.foldl (setupStep alloc task.name signedWIDs)
    { reqs := [], widMap := [], renewNow := false, minExp := now + 30 * hour }

/-- The wait computed before the first sleep (identity_hook.go lines
196–199): zero when some candidate lacks a token, else
`ExpiryToRenewTime` of the running minimum expiration. -/
def initialWait (s : RenewSetup) (now minWait : Int) : Int :=
  if s.renewNow then 0 else ExpiryToRenewTime s.minExp now minWait

/-- Outcome of the sleep race between the reset timer and the cancellation
signal (identity_hook.go lines 209–214). -/
inductive SleepOutcome
  | timerFired
  | canceled
deriving DecidableEq, Repr

/-- External inputs consumed by one iteration of the inner renewal loop:
the sleep race outcome, the signer's response (`none` models a non-nil
error), the current instant, the per-identity sink write outcome, and the
random-stagger draws for the failure path and the per-identity sink-failure
path. -/
structure CycleInput where
  sleep : SleepOutcome
  signResult : Option (List SignedWorkloadIdentity)
  now : Int
  sinkOk : String → Bool
  failDraw : Int
  sinkDraw : String → Int

/-- State of the token-application loop (identity_hook.go lines 232–257):
the running next-expiration (`none` models Go's zero `time.Time` set at
line 233) and the tokens successfully handed to the sink, in order. -/
structure ApplyState where
  minExp : Option Int
  applied : List (String × String)
deriving DecidableEq, Repr

/-- Body of the token-application loop (identity_hook.go lines 235–257):
unknown identities are skipped; a failed sink write overwrites the running
minimum with `now + Backoff(minWait, 1h, retry+1) + RandomStagger(minWait)`
and does not apply the token; a successful write applies the token and
folds its expiration into the minimum. -/
def applyStep (minWait : Int) (widMap : List (String × WorkloadIdentity))
    (retry : Nat) (now : Int) (sinkOk : String → Bool) (sinkDraw : String → Int)
    (s : ApplyState) (token : SignedWorkloadIdentity) : ApplyState :=
  match lookupKey widMap token.identityName with
  | none => s
  | some _ =>
    if sinkOk token.identityName then
      let s1 : ApplyState :=
        { s with applied := s.applied ++ [(token.identityName, token.jwt)] }
      match s1.minExp with
      | none => { s1 with minExp := some token.expiration }
      | some m =>
        if token.expiration < m then { s1 with minExp := some token.expiration } else s1
    else
      { s with minExp := some (now + Backoff minWait hour (retry + 1) +
                                RandomStagger minWait (sinkDraw token.identityName)) }

/-- The token-application loop over a response (identity_hook.go lines
232–257), starting from the reset (zero) expiration. -/
def applyTokens (minWait : Int) (widMap : List (String × WorkloadIdentity))
    (retry : Nat) (now : Int) (sinkOk : String → Bool) (sinkDraw : String → Int)
    (tokens : List SignedWorkloadIdentity) : ApplyState :=
  tokens.foldl (applyStep minWait widMap retry now sinkOk sinkDraw)
    { minExp := none, applied := [] }

/-- The value `ExpiryToRenewTime` receives at line 260: the folded minimum,
or Go's zero time (modelled as 0, far in the past) when no token updated it. -/
def minExpValue : Option Int → Int
  | none => 0
  | some m => m

/-- One signing call issued by the inner loop, recorded with the wait slept
before it, the request batch sent, and the tokens the sink accepted. -/
structure CycleRecord where
  wait : Int
  reqs : List WorkloadIdentityRequest
  applied : List (String × String)
deriving DecidableEq, Repr

/-- Result of running the inner loop on a finite input list: either the
loop returned because cancellation was observed during a sleep, or the
modelled inputs were exhausted with the loop still running. -/
inductive LoopResult
  | stopped (calls : List CycleRecord)
  | exhausted (calls : List CycleRecord) (wait : Int) (retry : Nat)
deriving DecidableEq, Repr

/-- Prepend a signing-call record to a loop result's trace. -/
def consCall (r : CycleRecord) : LoopResult → LoopResult
  | .stopped calls => .stopped (r :: calls)
  | .exhausted calls w k => .exhausted (r :: calls) w k

/-- The trace of signing calls of a loop result. -/
def LoopResult.calls : LoopResult → List CycleRecord
  | .stopped c => c
  | .exhausted c _ _ => c

/-- The inner renewal loop (identity_hook.go lines 206–262).  The loop
condition's `err` is bound once at loop entry and never reassigned (the
`:=` at lines 217 and 244 shadow it), so inside the loop cancellation is
observable only in the sleep `select`; a signing error or an empty response
bumps the retry counter and switches the wait to backoff plus jitter; a
non-empty response applies tokens, resets the retry counter and recomputes
the wait from the folded minimum expiration. -/
def renewLoop (minWait : Int) (widMap : List (String × WorkloadIdentity))
    (reqs : List WorkloadIdentityRequest) :
    Int → Nat → List CycleInput → LoopResult
  | wait, retry, [] => .exhausted [] wait retry
  | wait, retry, inp :: rest =>
    match inp.sleep with
    | .canceled => .stopped []
    | .timerFired =>
      match inp.signResult with
      | none =>
        consCall ⟨wait, reqs, []⟩
          (renewLoop minWait widMap reqs
            (Backoff minWait hour (retry + 1) + RandomStagger minWait inp.failDraw)
            (retry + 1) rest)
      | some [] =>
        consCall ⟨wait, reqs, []⟩
          (renewLoop minWait widMap reqs
            (Backoff minWait hour (retry + 1) + RandomStagger minWait inp.failDraw)
            (retry + 1) rest)
      | some (t :: ts) =>
        let st := applyTokens minWait widMap retry inp.now inp.sinkOk inp.sinkDraw (t :: ts)
        consCall ⟨wait, reqs, st.applied⟩
          (renewLoop minWait widMap reqs
            (ExpiryToRenewTime (minExpValue st.minExp) inp.now minWait) 0 rest)

/-- Result of `renew`: either the goroutine returned, or the modelled
inputs ran out with the inner loop still running. -/
inductive RenewOutcome
  | returned (calls : List CycleRecord)
  | running (calls : List CycleRecord) (wait : Int) (retry : Nat)
deriving DecidableEq, Repr

/-- The trace of signing calls of a renew outcome. -/
def RenewOutcome.calls : RenewOutcome → List CycleRecord
  | .returned c => c
  | .running c _ _ => c

/-- The outer task loop of `renew` (identity_hook.go lines 147–263).  A task
with no identities, or one whose candidates all have TTL = 0, makes `renew`
return outright (lines 153–156, 191–194).  `canceledAtStart` models
`stopCtx.Err()` being non-nil when the inner loop's condition is first
evaluated (line 206): the inner loop body then never runs and control falls
through to the next task.  Otherwise the inner loop runs and only a `return`
leaves it. -/
def renewTasks (minWait : Int) (alloc : Allocation) (canceledAtStart : Bool)
    (signedWIDs : List (String × SignedWorkloadIdentity)) (now : Int)
    (inputs : List CycleInput) : List Task → RenewOutcome
  | [] => .returned []
  | task :: rest =>
    if task.identities.length = 0 then .returned []
    else
      let s := renewSetup alloc task signedWIDs now
      if s.reqs.length = 0 then .returned []
      else if canceledAtStart then
        renewTasks minWait alloc canceledAtStart signedWIDs now inputs rest
      else
        match renewLoop minWait s.widMap s.reqs (initialWait s now minWait) 0 inputs with
        | .stopped calls => .returned calls
        | .exhausted calls w r => .running calls w r

/-- `renew` (identity_hook.go lines 147–264). -/
def renew (minWait : Int) (alloc : Allocation) (canceledAtStart : Bool)
    (signedWIDs : List (String × SignedWorkloadIdentity)) (now : Int)
    (inputs : List CycleInput) : RenewOutcome :=
  renewTasks minWait alloc canceledAtStart signedWIDs now inputs alloc.tasks

/-- The expirations of the prior signed tokens of the TTL ≠ 0 candidates of
an identity list, in declaration order (the values folded into `minExp` by
the candidate-selection loop). -/
def candExps (sw : List (String × SignedWorkloadIdentity))
    (l : List WorkloadIdentity) : List Int :=
  l.filterMap (fun w =>
    if w.ttl = 0 then none else (lookupKey sw w.name).map (fun sid => sid.expiration))

/- Concrete fixtures used by witnesses and counterexamples. -/

/-- An identity with a one-hour TTL. -/
def widConsul : WorkloadIdentity := ⟨"consul", hour⟩

/-- A TTL = 0 (non-expiring) identity. -/
def widStatic : WorkloadIdentity := ⟨"static", 0⟩

/-- An identity with a ten-minute TTL. -/
def widVault : WorkloadIdentity := ⟨"vault", 600 * second⟩

/-- A task owning one renewable and one non-expiring identity. -/
def taskWeb : Task := ⟨"web", [widConsul, widStatic]⟩

/-- A task whose only identity has TTL = 0. -/
def taskStatic : Task := ⟨"db", [widStatic]⟩

/-- A second task with a renewable identity. -/
def taskApi : Task := ⟨"api", [widVault]⟩

/-- A single-task allocation. -/
def allocWeb : Allocation := ⟨"alloc-1", 7, [taskWeb]⟩

/-- An allocation whose only task has only TTL = 0 identities. -/
def allocStatic : Allocation := ⟨"alloc-2", 3, [taskStatic]⟩

/-- A two-task allocation, both tasks declaring identities. -/
def allocMulti : Allocation := ⟨"alloc-3", 9, [taskWeb, taskApi]⟩

/-- A fixed current instant (nanoseconds after Go's zero time). -/
def now0 : Int := 1000000 * second

/-- A prior token for `consul` expiring only five seconds from `now0`. -/
def swShort : List (String × SignedWorkloadIdentity) :=
  [("consul", ⟨"consul", "jwt0", now0 + 5 * second⟩)]

/-- A prior token for `consul` expiring one hour from `now0`. -/
def swGood : List (String × SignedWorkloadIdentity) :=
  [("consul", ⟨"consul", "jwt1", now0 + hour⟩)]

/-- A signer that signs every request with a one-hour token. -/
def signerOk : Nat → List WorkloadIdentityRequest →
    Except String (List SignedWorkloadIdentity) :=
  fun _ reqs => .ok (reqs.map (fun r => ⟨r.identityName, "tok-" ++ r.identityName, now0 + hour⟩))

/-- A signer that always fails. -/
def signerFail : Nat → List WorkloadIdentityRequest →
    Except String (List SignedWorkloadIdentity) :=
  fun _ _ => .error "boom"

/-- The renewal request for `consul` on `taskWeb` of `allocWeb`. -/
def reqConsul : WorkloadIdentityRequest := ⟨"alloc-1", "web", "consul"⟩

/-- The name→spec map built by candidate selection on `taskWeb`. -/
def widMapA : List (String × WorkloadIdentity) := [("consul", widConsul)]

/-- The request batch built by candidate selection on `taskWeb`. -/
def reqsA : List WorkloadIdentityRequest := [reqConsul]

/-- A cycle input whose sleep race is won by cancellation. -/
def inpCancel : CycleInput :=
  ⟨.canceled, none, now0, fun _ => true, 0, fun _ => 0⟩

/-- A cycle input whose signing call fails, with a given stagger draw. -/
def inpFail (d : Int) : CycleInput :=
  ⟨.timerFired, none, now0, fun _ => true, d, fun _ => 0⟩

/-- A cycle input whose signing call returns a fresh `consul` token but
whose sink write fails for every identity. -/
def inpSinkFail : CycleInput :=
  ⟨.timerFired, some [⟨"consul", "jwtX", now0 + hour⟩], now0, fun _ => false, 0, fun _ => 0⟩

/- General lemmas about the embedding, shared by the claim theorems. -/

theorem consCall_calls (r : CycleRecord) (l : LoopResult) :
    (consCall r l).calls = r :: l.calls := by
  cases l <;> rfl

theorem renewLoop_calls_reqs (minWait : Int)
    (widMap : List (String × WorkloadIdentity)) (reqs : List WorkloadIdentityRequest) :
    ∀ (inputs : List CycleInput) (wait : Int) (retry : Nat),
      ∀ rec ∈ (renewLoop minWait widMap reqs wait retry inputs).calls, rec.reqs = reqs := by
  intro inputs
  induction inputs with
  | nil => intro wait retry rec h; simp [renewLoop, LoopResult.calls] at h
  | cons inp rest ih =>
    intro wait retry rec h
    unfold renewLoop at h
    cases hs : inp.sleep with
    | canceled => rw [hs] at h; simp [LoopResult.calls] at h
    | timerFired =>
      rw [hs] at h
      cases hr : inp.signResult with
      | none =>
        rw [hr] at h
        rw [consCall_calls] at h
        rcases List.mem_cons.mp h with h | h
        · subst h; rfl
        · exact ih _ _ rec h
      | some toks =>
        rw [hr] at h
        cases toks with
        | nil =>
          rw [consCall_calls] at h
          rcases List.mem_cons.mp h with h | h
          · subst h; rfl
          · exact ih _ _ rec h
        | cons t ts =>
          rw [consCall_calls] at h
          rcases List.mem_cons.mp h with h | h
          · subst h; rfl
          · exact ih _ _ rec h

theorem setupStep_renewNow (alloc : Allocation) (tn : String)
    (sw : List (String × SignedWorkloadIdentity)) (s : RenewSetup)
    (w : WorkloadIdentity) :
    (setupStep alloc tn sw s w).renewNow =
      (s.renewNow || (!decide (w.ttl = 0) && (lookupKey sw w.name).isNone)) := by
  unfold setupStep
  by_cases h0 : w.ttl = 0
  · simp [h0]
  · rw [if_neg h0]
    cases hl : lookupKey sw w.name with
    | none => simp [h0, hl]
    | some sid =>
      simp only [hl, h0, decide_eq_true_eq, Option.isNone_some, Bool.and_false,
        Bool.or_false]
      split <;> rfl

theorem setupStep_reqs (alloc : Allocation) (tn : String)
    (sw : List (String × SignedWorkloadIdentity)) (s : RenewSetup)
    (w : WorkloadIdentity) :
    (setupStep alloc tn sw s w).reqs =
      s.reqs ++ (if w.ttl = 0 then [] else [⟨alloc.id, tn, w.name⟩]) := by
  unfold setupStep
  by_cases h0 : w.ttl = 0
  · simp [h0]
  · rw [if_neg h0, if_neg h0]
    cases hl : lookupKey sw w.name with
    | none => simp [hl]
    | some sid =>
      simp only [hl]
      split <;> rfl

theorem setupStep_minExp (alloc : Allocation) (tn : String)
    (sw : List (String × SignedWorkloadIdentity)) (s : RenewSetup)
    (w : WorkloadIdentity) :
    (setupStep alloc tn sw s w).minExp = (candExps sw [w]).foldl min s.minExp := by
  unfold setupStep
  by_cases h0 : w.ttl = 0
  · simp [h0, candExps]
  · rw [if_neg h0]
    cases hl : lookupKey sw w.name with
    | none => simp [h0, hl, candExps]
    | some sid =>
      simp only [candExps, List.filterMap_cons, h0, ite_false, hl,
        Option.map_some', List.filterMap_nil, List.foldl_cons, List.foldl_nil]
      split <;> rename_i hcmp
      · show sid.expiration = min s.minExp sid.expiration
        omega
      · show s.minExp = min s.minExp sid.expiration
        omega

theorem candExps_cons (sw : List (String × SignedWorkloadIdentity))
    (w : WorkloadIdentity) (l : List WorkloadIdentity) :
    candExps sw (w :: l) = candExps sw [w] ++ candExps sw l := by
  simp [candExps, List.filterMap_cons]
  split <;> simp

theorem setup_renewNow (alloc : Allocation) (tn : String)
    (sw : List (String × SignedWorkloadIdentity)) :
    ∀ (l : List WorkloadIdentity) (s : RenewSetup),
      (l.foldl (setupStep alloc tn sw) s).renewNow =
        (s.renewNow ||
          l.any (fun w => !decide (w.ttl = 0) && (lookupKey sw w.name).isNone)) := by
  intro l
  induction l with
  | nil => intro s; simp
  | cons w l ih =>
    intro s
    rw [List.foldl_cons, ih, setupStep_renewNow, List.any_cons, Bool.or_assoc]

theorem setup_reqs (alloc : Allocation) (tn : String)
    (sw : List (String × SignedWorkloadIdentity)) :
    ∀ (l : List WorkloadIdentity) (s : RenewSetup),
      (l.foldl (setupStep alloc tn sw) s).reqs =
        s.reqs ++ (l.filter (fun w => !decide (w.ttl = 0))).map
          (fun w => ⟨alloc.id, tn, w.name⟩) := by
  intro l
  induction l with
  | nil => intro s; simp
  | cons w l ih =>
    intro s
    rw [List.foldl_cons, ih, setupStep_reqs, List.filter_cons]
    by_cases h0 : w.ttl = 0
    · simp [h0]
    · simp [h0]

theorem setup_minExp (alloc : Allocation) (tn : String)
    (sw : List (String × SignedWorkloadIdentity)) :
    ∀ (l : List WorkloadIdentity) (s : RenewSetup),
      (l.foldl (setupStep alloc tn sw) s).minExp =
        (candExps sw l).foldl min s.minExp := by
  intro l
  induction l with
  | nil => intro s; simp [candExps]
  | cons w l ih =>
    intro s
    rw [List.foldl_cons, ih, candExps_cons, List.foldl_append, setupStep_minExp]

theorem foldl_min_of_le (l : List Int) :
    ∀ (init : Int), (∀ e ∈ l, init ≤ e) → l.foldl min init = init := by
  induction l with
  | nil => intro init _; rfl
  | cons a l ih =>
    intro init h
    simp only [List.foldl_cons]
    rw [min_eq_left (h a (List.mem_cons_self a l))]
    exact ih init (fun e he => h e (List.mem_cons_of_mem a he))

theorem foldl_min_eq (l : List Int) :
    ∀ (init m : Int), m ∈ l → (∀ e ∈ l, m ≤ e) → m ≤ init →
      l.foldl min init = m := by
  induction l with
  | nil => intro init m h; cases h
  | cons a l ih =>
    intro init m hmem hlb hinit
    simp only [List.foldl_cons]
    rcases List.mem_cons.mp hmem with h | h
    · subst h
      by_cases hl : l = []
      · subst hl; simp [min_eq_right hinit]
      · rw [min_eq_right hinit]
        exact foldl_min_of_le l m (fun e he => hlb e (List.mem_cons_of_mem m he))
    · exact ih (min init a) m h
        (fun e he => hlb e (List.mem_cons_of_mem a he))
        (le_min hinit (hlb a (List.mem_cons_self a l)))

theorem expiryToRenewTime_ge (e n mw : Int) : mw ≤ ExpiryToRenewTime e n mw := by
  show mw ≤ (if (e - n) / 2 < mw then mw else (e - n) / 2)
  split <;> omega

theorem expiryToRenewTime_lt (e n mw : Int) (hslack : mw < e - n) (hmw : 0 < mw) :
    ExpiryToRenewTime e n mw < e - n := by
  show (if (e - n) / 2 < mw then mw else (e - n) / 2) < e - n
  split <;> omega

theorem renewTasks_canceled (mw : Int) (alloc : Allocation)
    (sw : List (String × SignedWorkloadIdentity)) (now : Int)
    (inputs : List CycleInput) :
    ∀ ts : List Task, renewTasks mw alloc true sw now inputs ts = .returned [] := by
  intro ts
  induction ts with
  | nil => rfl
  | cons t rest ih =>
    unfold renewTasks
    split
    · rfl
    · split
      · show (if (renewSetup alloc t sw now).reqs.length = 0 then RenewOutcome.returned []
          else renewTasks mw alloc true sw now inputs rest) = RenewOutcome.returned []
        split
        · rfl
        · exact ih
      · rename_i h
        exact absurd rfl h

theorem prerunTasks_ok (alloc : Allocation)
    (signer : Nat → List WorkloadIdentityRequest →
      Except String (List SignedWorkloadIdentity)) :
    ∀ ts : List Task, (∀ t ∈ ts, ∃ m, getIdentities alloc t signer = .ok m) →
      (PrerunTasks alloc signer ts).error = none ∧
      (PrerunTasks alloc signer ts).spawned = [[]] ∧
      (PrerunTasks alloc signer ts).published.length = ts.length := by
  intro ts
  induction ts with
  | nil => intro _; refine ⟨rfl, rfl, rfl⟩
  | cons t rest ih =>
    intro h
    obtain ⟨m, hm⟩ := h t (List.mem_cons_self t rest)
    have hr := ih (fun t' ht' => h t' (List.mem_cons_of_mem t ht'))
    unfold PrerunTasks
    rw [hm]
    exact ⟨hr.1, hr.2.1, by simpa using hr.2.2⟩

theorem prerunTasks_err (alloc : Allocation)
    (signer : Nat → List WorkloadIdentityRequest →
      Except String (List SignedWorkloadIdentity)) (t : Task) (e : String) :
    ∀ pre : List Task, (∀ t' ∈ pre, ∃ m, getIdentities alloc t' signer = .ok m) →
      getIdentities alloc t signer = .error e →
      ∀ post : List Task,
        (PrerunTasks alloc signer (pre ++ t :: post)).error =
          some ("error fetching alternate identities: " ++ e) ∧
        (PrerunTasks alloc signer (pre ++ t :: post)).spawned = [] ∧
        (PrerunTasks alloc signer (pre ++ t :: post)).published.length = pre.length := by
  intro pre
  induction pre with
  | nil =>
    intro _ he post
    simp only [List.nil_append]
    unfold PrerunTasks
    rw [he]
    exact ⟨rfl, rfl, rfl⟩
  | cons p pre ih =>
    intro hok he post
    obtain ⟨m, hm⟩ := hok p (List.mem_cons_self p pre)
    have hr := ih (fun t' ht' => hok t' (List.mem_cons_of_mem p ht')) he post
    simp only [List.cons_append]
    unfold PrerunTasks
    rw [hm]
    exact ⟨hr.1, hr.2.1, by simpa using hr.2.2⟩

theorem prerunTasks_spawned (alloc : Allocation)
    (signer : Nat → List WorkloadIdentityRequest →
      Except String (List SignedWorkloadIdentity)) :
    ∀ ts : List Task, (PrerunTasks alloc signer ts).spawned = [] ∨
      (PrerunTasks alloc signer ts).spawned = [[]] := by
  intro ts
  induction ts with
  | nil => exact Or.inr rfl
  | cons t rest ih =>
    unfold PrerunTasks
    cases hg : getIdentities alloc t signer with
    | error e => exact Or.inl rfl
    | ok m => simpa using ih

theorem applyStep_applied (mw : Int) (wm : List (String × WorkloadIdentity))
    (k : Nat) (n : Int) (sOk : String → Bool) (sd : String → Int)
    (s : ApplyState) (t : SignedWorkloadIdentity) :
    (applyStep mw wm k n sOk sd s t).applied =
      s.applied ++ (if (lookupKey wm t.identityName).isSome && sOk t.identityName
        then [(t.identityName, t.jwt)] else []) := by
  unfold applyStep
  cases hl : lookupKey wm t.identityName with
  | none => simp [hl]
  | some w =>
    cases hOk : sOk t.identityName with
    | false => simp [hl, hOk]
    | true =>
      cases hM : s.minExp with
      | none => simp [hl, hOk, hM]
      | some m =>
        simp only [hl, hOk, Option.isSome_some, Bool.true_and, if_true, hM]
        split <;> simp

theorem applyTokens_applied (mw : Int) (wm : List (String × WorkloadIdentity))
    (k : Nat) (n : Int) (sOk : String → Bool) (sd : String → Int) :
    ∀ (toks : List SignedWorkloadIdentity) (s : ApplyState),
      (toks.foldl (applyStep mw wm k n sOk sd) s).applied =
        s.applied ++ (toks.filter (fun t =>
          (lookupKey wm t.identityName).isSome && sOk t.identityName)).map
          (fun t => (t.identityName, t.jwt)) := by
  intro toks
  induction toks with
  | nil => intro s; simp
  | cons t ts ih =>
    intro s
    rw [List.foldl_cons, ih, applyStep_applied, List.filter_cons]
    cases hc : (lookupKey wm t.identityName).isSome && sOk t.identityName with
    | false => simp
    | true => simp

theorem setup_renewNow_false (alloc : Allocation) (task : Task)
    (sw : List (String × SignedWorkloadIdentity)) (now : Int)
    (hfound : ∀ w ∈ task.identities, w.ttl ≠ 0 → (lookupKey sw w.name).isSome = true) :
    (renewSetup alloc task sw now).renewNow = false := by
  unfold renewSetup
  rw [setup_renewNow]
  simp only [Bool.false_or, List.any_eq_false]
  intro w hw
  by_cases h0 : w.ttl = 0
  · simp [h0]
  · cases hl : lookupKey sw w.name with
    | none =>
      have hs := hfound w hw h0
      rw [hl] at hs
      simp at hs
    | some sid => simp [hl]

theorem renewTasks_cons_active (mw : Int) (alloc : Allocation)
    (sw : List (String × SignedWorkloadIdentity)) (now : Int)
    (inputs : List CycleInput) (t1 : Task) (rest : List Task) :
    renewTasks mw alloc false sw now inputs (t1 :: rest) =
      if t1.identities.length = 0 then .returned []
      else if (renewSetup alloc t1 sw now).reqs.length = 0 then .returned []
      else
        match renewLoop mw (renewSetup alloc t1 sw now).widMap
            (renewSetup alloc t1 sw now).reqs
            (initialWait (renewSetup alloc t1 sw now) now mw) 0 inputs with
        | .stopped calls => .returned calls
        | .exhausted calls w r => .running calls w r := rfl

/- Claim theorems. -/

/-- C1 (counterexample): one TTL > 0 identity with a valid initial signed
token (expiration `now0 + 5s`, strictly after `now0`).  With the default
ten-second floor the first computed wait is the floor, `10s`, which is not
strictly less than `expiration − now = 5s`, so the claim as stated is false
at this input. -/
theorem C1_counterexample :
    (renewSetup allocWeb taskWeb swShort now0).renewNow = false ∧
    (renewSetup allocWeb taskWeb swShort now0).minExp = now0 + 5 * second ∧
    now0 < now0 + 5 * second ∧
    initialWait (renewSetup allocWeb taskWeb swShort now0) now0 (10 * second) =
      ExpiryToRenewTime (now0 + 5 * second) now0 (10 * second) ∧
    ¬ (initialWait (renewSetup allocWeb taskWeb swShort now0) now0 (10 * second) <
        (now0 + 5 * second) - now0) := by
  decide

/-- C1 (amended): for identities with TTL > 0 that all hold a prior signed
token, if `minM` is the least expiration among the candidates, `minM` does
not exceed the loop's `now + 30h` initialization, and the remaining
lifetime `minM − now` exceeds the positive floor, then the first wait
computed before the first signing call equals
`ExpiryToRenewTime minM now floor`, is at least the floor, and is strictly
less than `minM − now`. -/
theorem C1_first_wait (alloc : Allocation) (task : Task)
    (sw : List (String × SignedWorkloadIdentity)) (now mw minM : Int)
    (hfound : ∀ w ∈ task.identities, w.ttl ≠ 0 → (lookupKey sw w.name).isSome = true)
    (hmem : minM ∈ candExps sw task.identities)
    (hlb : ∀ e ∈ candExps sw task.identities, minM ≤ e)
    (hcap : minM ≤ now + 30 * hour)
    (hslack : mw < minM - now) (hmw : 0 < mw) :
    initialWait (renewSetup alloc task sw now) now mw = ExpiryToRenewTime minM now mw ∧
    mw ≤ initialWait (renewSetup alloc task sw now) now mw ∧
    initialWait (renewSetup alloc task sw now) now mw < minM - now := by
  have hnow := setup_renewNow_false alloc task sw now hfound
  have hexp : (renewSetup alloc task sw now).minExp = minM := by
    unfold renewSetup
    rw [setup_minExp]
    exact foldl_min_eq _ _ _ hmem hlb hcap
  have hwait : initialWait (renewSetup alloc task sw now) now mw =
      ExpiryToRenewTime minM now mw := by
    unfold initialWait
    rw [hnow, hexp]
    simp
  refine ⟨hwait, ?_, ?_⟩
  · rw [hwait]; exact expiryToRenewTime_ge minM now mw
  · rw [hwait]; exact expiryToRenewTime_lt minM now mw hslack hmw

/-- C1 (witness): concrete instance of the amended first-wait property with
a one-hour token and the default ten-second floor. -/
theorem C1_first_wait_witness :
    initialWait (renewSetup allocWeb taskWeb swGood now0) now0 (10 * second) =
      ExpiryToRenewTime (now0 + hour) now0 (10 * second) ∧
    10 * second ≤ initialWait (renewSetup allocWeb taskWeb swGood now0) now0 (10 * second) ∧
    initialWait (renewSetup allocWeb taskWeb swGood now0) now0 (10 * second) <
      (now0 + hour) - now0 :=
  C1_first_wait allocWeb taskWeb swGood now0 (10 * second) (now0 + hour)
    (by decide) (by decide) (by decide) (by decide) (by decide) (by decide)

/-- C2: every declared identity (TTL = 0 included) has a request in the
initial Prerun signing batch; every renewal-cycle request names a TTL ≠ 0
identity; every signing call the renewal loop issues uses exactly the
candidate batch; and a task whose identities all have TTL = 0 makes `renew`
return with an empty trace, never issuing a signing call. -/
theorem C2_ttl_zero (alloc : Allocation) (task : Task)
    (sw : List (String × SignedWorkloadIdentity)) (now mw : Int) (c : Bool)
    (inputs : List CycleInput) (rest : List Task) :
    (∀ wid ∈ task.identities, ∃ r ∈ widRequests alloc task, r.identityName = wid.name) ∧
    (∀ r ∈ (renewSetup alloc task sw now).reqs,
      ∃ wid ∈ task.identities, wid.ttl ≠ 0 ∧ wid.name = r.identityName) ∧
    (∀ rec ∈ (renewLoop mw (renewSetup alloc task sw now).widMap
        (renewSetup alloc task sw now).reqs
        (initialWait (renewSetup alloc task sw now) now mw) 0 inputs).calls,
      rec.reqs = (renewSetup alloc task sw now).reqs) ∧
    ((∀ wid ∈ task.identities, wid.ttl = 0) →
      renewTasks mw alloc c sw now inputs (task :: rest) = .returned []) := by
  refine ⟨?_, ?_, ?_, ?_⟩
  · intro wid hw
    exact ⟨⟨alloc.id, task.name, wid.name⟩, List.mem_map_of_mem _ hw, rfl⟩
  · intro r hr
    unfold renewSetup at hr
    rw [setup_reqs] at hr
    simp only [List.nil_append] at hr
    obtain ⟨w, hwf, hwr⟩ := List.mem_map.mp hr
    obtain ⟨hwmem, hwp⟩ := List.mem_filter.mp hwf
    refine ⟨w, hwmem, ?_, ?_⟩
    · simpa using hwp
    · rw [← hwr]
  · exact renewLoop_calls_reqs mw _ _ inputs _ 0
  · intro hall
    have hreqs : (renewSetup alloc task sw now).reqs = [] := by
      unfold renewSetup
      rw [setup_reqs]
      simp only [List.nil_append, List.map_eq_nil_iff, List.filter_eq_nil_iff]
      intro w hw
      simp [hall w hw]
    cases c with
    | true => exact renewTasks_canceled mw alloc sw now inputs _
    | false =>
      rw [renewTasks_cons_active]
      by_cases h1 : task.identities.length = 0
      · rw [if_pos h1]
      · rw [if_neg h1, if_pos (by rw [hreqs]; rfl)]

/-- C2 (witness): a task whose only identity has TTL = 0 makes the renewal
loop return with no signing call. -/
theorem C2_ttl_zero_witness :
    renewTasks (10 * second) allocStatic false [] now0 [] (taskStatic :: []) =
      .returned [] :=
  (C2_ttl_zero allocStatic taskStatic [] now0 (10 * second) false [] []).2.2.2
    (by decide)

/-- C3: triggering the cancellation signal twice, in either order of `Stop`
and `Shutdown`, leaves the same canceled state as triggering it once; and
when cancellation wins the sleep race the loop returns immediately with no
signing call, no applied tokens and no further input consumed. -/
theorem C3_cancel_idempotent (s : Bool) (mw : Int)
    (wm : List (String × WorkloadIdentity)) (reqs : List WorkloadIdentityRequest)
    (w : Int) (k : Nat) (inp : CycleInput) (rest : List CycleInput)
    (hc : inp.sleep = .canceled) :
    Stop (Stop s) = Stop s ∧ Shutdown (Stop s) = Stop s ∧
    Stop (Shutdown s) = Shutdown s ∧ Stop s = Shutdown s ∧
    renewLoop mw wm reqs w k (inp :: rest) = .stopped [] := by
  refine ⟨rfl, rfl, rfl, rfl, ?_⟩
  unfold renewLoop
  rw [hc]

/-- C3 (witness): concrete double-cancel and a concrete canceled sleep. -/
theorem C3_cancel_idempotent_witness :
    Stop (Stop false) = Stop false ∧ Shutdown (Stop false) = Stop false ∧
    Stop (Shutdown false) = Shutdown false ∧ Stop false = Shutdown false ∧
    renewLoop (10 * second) widMapA reqsA 0 0 [inpCancel] = .stopped [] :=
  C3_cancel_idempotent false (10 * second) widMapA reqsA 0 0 inpCancel [] rfl

/-- C4: a renewal-cycle response with zero signed identities is handled
identically to a signing error: the same record (with no applied state) is
traced, the retry counter is incremented, and the next wait is
`Backoff(floor, 1h, retry) + RandomStagger(floor)`; the loop continues on
the remaining inputs. -/
theorem C4_zero_tokens_as_error (mw : Int) (wm : List (String × WorkloadIdentity))
    (reqs : List WorkloadIdentityRequest) (w : Int) (k : Nat) (n : Int)
    (sOk : String → Bool) (d : Int) (sd : String → Int) (rest : List CycleInput) :
    renewLoop mw wm reqs w k (⟨.timerFired, some [], n, sOk, d, sd⟩ :: rest) =
      renewLoop mw wm reqs w k (⟨.timerFired, none, n, sOk, d, sd⟩ :: rest) ∧
    renewLoop mw wm reqs w k (⟨.timerFired, some [], n, sOk, d, sd⟩ :: rest) =
      consCall ⟨w, reqs, []⟩
        (renewLoop mw wm reqs (Backoff mw hour (k + 1) + RandomStagger mw d)
          (k + 1) rest) :=
  ⟨rfl, rfl⟩

/-- C5: if every task's initial fetch succeeds, `Prerun` returns no error,
publishes one map per task and spawns exactly one renewal loop; if the
initial fetch fails on some task (all earlier tasks having succeeded),
`Prerun` returns that error wrapped, publishes no map for the failing task
(only the earlier tasks' maps), and spawns no renewal loop. -/
theorem C5_prerun_fatal (alloc : Allocation)
    (signer : Nat → List WorkloadIdentityRequest →
      Except String (List SignedWorkloadIdentity)) :
    ((∀ t ∈ alloc.tasks, ∃ m, getIdentities alloc t signer = .ok m) →
      (Prerun alloc signer).error = none ∧
      (Prerun alloc signer).spawned = [[]] ∧
      (Prerun alloc signer).published.length = alloc.tasks.length) ∧
    (∀ (pre post : List Task) (t : Task) (e : String),
      alloc.tasks = pre ++ t :: post →
      (∀ t' ∈ pre, ∃ m, getIdentities alloc t' signer = .ok m) →
      getIdentities alloc t signer = .error e →
      (Prerun alloc signer).error =
        some ("error fetching alternate identities: " ++ e) ∧
      (Prerun alloc signer).spawned = [] ∧
      (Prerun alloc signer).published.length = pre.length) := by
  constructor
  · intro h
    exact prerunTasks_ok alloc signer alloc.tasks h
  · intro pre post t e hsplit hok he
    have hr := prerunTasks_err alloc signer t e pre hok he post
    unfold Prerun
    rw [hsplit]
    exact hr

/-- C5 (witness): a succeeding signer gives no error, one spawned loop and
one published map; a failing signer gives the wrapped error, no spawned
loop and no published map. -/
theorem C5_prerun_fatal_witness :
    ((Prerun allocWeb signerOk).error = none ∧
      (Prerun allocWeb signerOk).spawned = [[]] ∧
      (Prerun allocWeb signerOk).published.length = allocWeb.tasks.length) ∧
    ((Prerun allocWeb signerFail).error =
        some ("error fetching alternate identities: " ++ "boom") ∧
      (Prerun allocWeb signerFail).spawned = [] ∧
      (Prerun allocWeb signerFail).published.length = ([] : List Task).length) :=
  ⟨(C5_prerun_fatal allocWeb signerOk).1 (by
      intro t ht
      simp only [allocWeb, List.mem_singleton] at ht
      subst ht
      exact ⟨_, rfl⟩),
   (C5_prerun_fatal allocWeb signerFail).2 [] [] taskWeb "boom" rfl
      (by intro t' ht'; cases ht') rfl⟩

/-- C6 (counterexample): a renewal cycle from retry counter 5 whose signing
call returns the requested `consul` token but whose sink write fails still
resets the retry counter to 0 (and applies nothing), refuting the claim
that the reset happens only when every requested identity received a fresh
token with no sink failure. -/
theorem C6_counterexample :
    renewLoop (10 * second) widMapA reqsA 0 5 [inpSinkFail] =
      .exhausted [⟨0, reqsA, []⟩] (320 * second) 0 ∧
    inpSinkFail.sinkOk "consul" = false := by
  decide

/-- C6 (amended): on every cycle whose signing call returns at least one
token — regardless of sink failures or identities missing from the
response — the retry counter is reset to zero and the next wait is computed
by `ExpiryToRenewTime` from the minimum expiration folded by the apply
phase (sink-failed identities contributing a backoff-derived time), not by
`Backoff`. -/
theorem C6_retry_reset (mw : Int) (wm : List (String × WorkloadIdentity))
    (reqs : List WorkloadIdentityRequest) (w : Int) (k : Nat)
    (t : SignedWorkloadIdentity) (ts : List SignedWorkloadIdentity) (n : Int)
    (sOk : String → Bool) (d : Int) (sd : String → Int) (rest : List CycleInput) :
    renewLoop mw wm reqs w k (⟨.timerFired, some (t :: ts), n, sOk, d, sd⟩ :: rest) =
      consCall ⟨w, reqs, (applyTokens mw wm k n sOk sd (t :: ts)).applied⟩
        (renewLoop mw wm reqs
          (ExpiryToRenewTime (minExpValue (applyTokens mw wm k n sOk sd (t :: ts)).minExp)
            n mw)
          0 rest) := rfl

/-- C7 (counterexample): once the backoff has reached the one-hour ceiling,
two consecutive failure cycles with equal stagger draws compute
bit-identical waits (both exactly one hour), refuting the claim that no two
consecutive waits are bit-identical. -/
theorem C7_counterexample :
    renewLoop (10 * second) [] [reqConsul] 0 10 [inpFail 0, inpFail 0] =
      .exhausted [⟨0, [reqConsul], []⟩, ⟨hour, [reqConsul], []⟩] hour 12 ∧
    Backoff (10 * second) hour 11 + RandomStagger (10 * second) 0 =
      Backoff (10 * second) hour 12 + RandomStagger (10 * second) 0 := by
  decide

/-- C7 (amended): on consecutive signing failures each computed wait equals
`Backoff(floor, 1h, retry) + RandomStagger(floor)`; while the doubled
backoff stays below the one-hour ceiling each wait is at least the positive
floor, carries a jitter in [0, floor), and the waits are non-decreasing;
at the ceiling consecutive waits may coincide. -/
theorem C7_backoff_monotone (mw : Int) (wm : List (String × WorkloadIdentity))
    (reqs : List WorkloadIdentityRequest) (w : Int) (k : Nat)
    (n1 n2 : Int) (s1 s2 : String → Bool) (d1 d2 : Int) (sd1 sd2 : String → Int)
    (rest : List CycleInput) (hmw : 0 < mw) (hceil : 2 ^ (k + 2) * mw ≤ hour) :
    renewLoop mw wm reqs w k
        (⟨.timerFired, none, n1, s1, d1, sd1⟩ ::
          ⟨.timerFired, none, n2, s2, d2, sd2⟩ :: rest) =
      consCall ⟨w, reqs, []⟩
        (consCall ⟨Backoff mw hour (k + 1) + RandomStagger mw d1, reqs, []⟩
          (renewLoop mw wm reqs (Backoff mw hour (k + 2) + RandomStagger mw d2)
            (k + 2) rest)) ∧
    Backoff mw hour (k + 1) = 2 ^ (k + 1) * mw ∧
    0 ≤ RandomStagger mw d1 ∧ RandomStagger mw d1 < mw ∧
    mw ≤ Backoff mw hour (k + 1) + RandomStagger mw d1 ∧
    Backoff mw hour (k + 1) + RandomStagger mw d1 ≤
      Backoff mw hour (k + 2) + RandomStagger mw d2 := by
  have hp1 : (1 : Int) ≤ 2 ^ (k + 1) := one_le_pow₀ (by norm_num)
  have hmono : (2 : Int) ^ (k + 1) ≤ 2 ^ (k + 2) :=
    pow_le_pow_right₀ (by norm_num) (by omega)
  have hb12 : 2 ^ (k + 1) * mw ≤ 2 ^ (k + 2) * mw :=
    mul_le_mul_of_nonneg_right hmono hmw.le
  have hB1 : Backoff mw hour (k + 1) = 2 ^ (k + 1) * mw :=
    min_eq_left (le_trans hb12 hceil)
  have hB2 : Backoff mw hour (k + 2) = 2 ^ (k + 2) * mw := min_eq_left hceil
  have hjr : ∀ d : Int, RandomStagger mw d = d % mw := by
    intro d
    unfold RandomStagger
    rw [if_neg (not_le.mpr hmw)]
  have hj1a : 0 ≤ RandomStagger mw d1 := by
    rw [hjr]; exact Int.emod_nonneg d1 (ne_of_gt hmw)
  have hj1b : RandomStagger mw d1 < mw := by
    rw [hjr]; exact Int.emod_lt_of_pos d1 hmw
  have hj2a : 0 ≤ RandomStagger mw d2 := by
    rw [hjr]; exact Int.emod_nonneg d2 (ne_of_gt hmw)
  have hmwA : mw ≤ 2 ^ (k + 1) * mw := by
    have := mul_le_mul_of_nonneg_right hp1 hmw.le
    simpa using this
  have hdbl : (2 : Int) ^ (k + 2) * mw = 2 * (2 ^ (k + 1) * mw) := by
    rw [pow_succ]; ring
  refine ⟨rfl, hB1, hj1a, hj1b, ?_, ?_⟩
  · rw [hB1]; linarith
  · rw [hB1, hB2, hdbl]; linarith

/-- C7 (witness): two consecutive failures from retry 0 with the default
floor: waits are traced, bounded below by the floor and non-decreasing. -/
theorem C7_backoff_monotone_witness :
    renewLoop (10 * second) widMapA reqsA 0 0 [inpFail 3, inpFail 7] =
      consCall ⟨0, reqsA, []⟩
        (consCall ⟨Backoff (10 * second) hour 1 + RandomStagger (10 * second) 3,
            reqsA, []⟩
          (renewLoop (10 * second) widMapA reqsA
            (Backoff (10 * second) hour 2 + RandomStagger (10 * second) 7) 2 [])) ∧
    Backoff (10 * second) hour 1 = 2 ^ 1 * (10 * second) ∧
    0 ≤ RandomStagger (10 * second) 3 ∧
    RandomStagger (10 * second) 3 < 10 * second ∧
    10 * second ≤ Backoff (10 * second) hour 1 + RandomStagger (10 * second) 3 ∧
    Backoff (10 * second) hour 1 + RandomStagger (10 * second) 3 ≤
      Backoff (10 * second) hour 2 + RandomStagger (10 * second) 7 :=
  C7_backoff_monotone (10 * second) widMapA reqsA 0 0 now0 now0
    (fun _ => true) (fun _ => true) 3 7 (fun _ => 0) (fun _ => 0) []
    (by decide) (by decide)

/-- C8: a failed sink write for a returned identity leaves the applied list
untouched and overwrites the running minimum expiration with
`now + Backoff(floor, 1h, retry+1) + RandomStagger(floor)` instead of the
token's real expiration; and across a whole response every token whose
identity is known and whose sink write succeeds is applied, regardless of
failures for other identities. -/
theorem C8_sink_isolation (mw : Int) (wm : List (String × WorkloadIdentity))
    (k : Nat) (n : Int) (sOk : String → Bool) (sd : String → Int)
    (s : ApplyState) (tok : SignedWorkloadIdentity)
    (toks : List SignedWorkloadIdentity)
    (hknown : (lookupKey wm tok.identityName).isSome = true)
    (hfail : sOk tok.identityName = false) :
    applyStep mw wm k n sOk sd s tok =
      { s with minExp := some (n + Backoff mw hour (k + 1) +
          RandomStagger mw (sd tok.identityName)) } ∧
    (toks.foldl (applyStep mw wm k n sOk sd) s).applied =
      s.applied ++ (toks.filter (fun t =>
        (lookupKey wm t.identityName).isSome && sOk t.identityName)).map
        (fun t => (t.identityName, t.jwt)) := by
  constructor
  · unfold applyStep
    cases hl : lookupKey wm tok.identityName with
    | none => rw [hl] at hknown; simp at hknown
    | some ww => simp [hl, hfail]
  · exact applyTokens_applied mw wm k n sOk sd toks s

/-- C8 (witness): a concrete response where `consul`'s sink write fails but
`vault`'s succeeds: `consul` forces the backoff-derived minimum and only
`vault` is applied. -/
theorem C8_sink_isolation_witness :
    applyStep (10 * second) widMapA 0 now0 (fun _ => false) (fun _ => 0)
        ⟨none, []⟩ ⟨"consul", "jwtX", now0 + hour⟩ =
      { minExp := some (now0 + Backoff (10 * second) hour 1 +
          RandomStagger (10 * second) 0), applied := [] } :=
  (C8_sink_isolation (10 * second) widMapA 0 now0 (fun _ => false) (fun _ => 0)
    ⟨none, []⟩ ⟨"consul", "jwtX", now0 + hour⟩ [] (by decide) rfl).1

/-- C9: every signing call traced by `renew` over a multi-task allocation
uses the candidate batch of the first task; when the loop is not canceled
at entry the whole outcome is decided by the first task alone; and when it
is canceled at entry no signing call is issued for any task. -/
theorem C9_first_task_only (mw : Int) (alloc : Allocation) (c : Bool)
    (sw : List (String × SignedWorkloadIdentity)) (now : Int)
    (inputs : List CycleInput) (t1 : Task) (rest : List Task) :
    (∀ rec ∈ (renewTasks mw alloc c sw now inputs (t1 :: rest)).calls,
      rec.reqs = (renewSetup alloc t1 sw now).reqs) ∧
    (c = false →
      renewTasks mw alloc c sw now inputs (t1 :: rest) =
        renewTasks mw alloc c sw now inputs [t1]) ∧
    (c = true → ∀ ts : List Task,
      renewTasks mw alloc c sw now inputs ts = .returned []) := by
  cases c with
  | true =>
    refine ⟨?_, ?_, ?_⟩
    · intro rec h
      rw [renewTasks_canceled] at h
      simp [RenewOutcome.calls] at h
    · intro h; cases h
    · intro _ ts; exact renewTasks_canceled mw alloc sw now inputs ts
  | false =>
    refine ⟨?_, ?_, ?_⟩
    · intro rec h
      rw [renewTasks_cons_active] at h
      by_cases h1 : t1.identities.length = 0
      · rw [if_pos h1] at h; simp [RenewOutcome.calls] at h
      · rw [if_neg h1] at h
        by_cases h2 : (renewSetup alloc t1 sw now).reqs.length = 0
        · rw [if_pos h2] at h; simp [RenewOutcome.calls] at h
        · rw [if_neg h2] at h
          cases hres : renewLoop mw (renewSetup alloc t1 sw now).widMap
              (renewSetup alloc t1 sw now).reqs
              (initialWait (renewSetup alloc t1 sw now) now mw) 0 inputs with
          | stopped calls =>
            rw [hres] at h
            simp only [RenewOutcome.calls] at h
            exact renewLoop_calls_reqs mw _ _ inputs _ 0 rec
              (by rw [hres]; exact h)
          | exhausted calls wv rv =>
            rw [hres] at h
            simp only [RenewOutcome.calls] at h
            exact renewLoop_calls_reqs mw _ _ inputs _ 0 rec
              (by rw [hres]; exact h)
    · intro _
      rw [renewTasks_cons_active, renewTasks_cons_active]
    · intro h; cases h

/-- C9 (witness): on the concrete two-task allocation, with no inputs and
no cancellation, the outcome equals the single-task outcome, and under
cancellation at entry every task list yields an empty trace. -/
theorem C9_first_task_only_witness :
    (renewTasks (10 * second) allocMulti false [] now0 [] (taskWeb :: [taskApi]) =
      renewTasks (10 * second) allocMulti false [] now0 [] [taskWeb]) ∧
    (renewTasks (10 * second) allocMulti true [] now0 [] (taskWeb :: [taskApi]) =
      .returned []) :=
  ⟨(C9_first_task_only (10 * second) allocMulti false [] now0 [] taskWeb [taskApi]).2.1
      rfl,
   (C9_first_task_only (10 * second) allocMulti true [] now0 [] taskWeb [taskApi]).2.2
      rfl (taskWeb :: [taskApi])⟩

/-- C10: the renewal loop always receives the outer, still-empty
`signedWIDs` map (the per-task fetch result is shadowed), and consequently
any task owning a TTL ≠ 0 identity sets `renewNow`, making the first
cycle's wait zero regardless of the initial fetch results. -/
theorem C10_shadowed_map (alloc : Allocation)
    (signer : Nat → List WorkloadIdentityRequest →
      Except String (List SignedWorkloadIdentity))
    (task : Task) (wid : WorkloadIdentity) (now mw : Int)
    (hmem : wid ∈ task.identities) (httl : wid.ttl ≠ 0) :
    (∀ arg ∈ (Prerun alloc signer).spawned, arg = []) ∧
    (renewSetup alloc task [] now).renewNow = true ∧
    initialWait (renewSetup alloc task [] now) now mw = 0 := by
  have hnow : (renewSetup alloc task [] now).renewNow = true := by
    unfold renewSetup
    rw [setup_renewNow]
    simp only [Bool.false_or, List.any_eq_true]
    refine ⟨wid, hmem, ?_⟩
    simp [httl, lookupKey]
  refine ⟨?_, hnow, ?_⟩
  · intro arg harg
    unfold Prerun at harg
    rcases prerunTasks_spawned alloc signer alloc.tasks with h | h
    · rw [h] at harg; cases harg
    · rw [h] at harg
      simpa using harg
  · unfold initialWait
    rw [hnow]
    simp

/-- C10 (witness): on the concrete allocation the spawned loop's map is
empty and the first wait of the `web` task is zero. -/
theorem C10_shadowed_map_witness :
    initialWait (renewSetup allocWeb taskWeb [] now0) now0 (10 * second) = 0 :=
  (C10_shadowed_map allocWeb signerOk taskWeb widConsul now0 (10 * second)
    (by decide) (by decide)).2.2

end IdentityHook
